import Mathlib

/-!
# Verification of sequence bookkeeping in the subsampling repository

Shallow embedding of `src/subsampling.py`.  Python lists become Lean
`List`s, the mutable `SequenceList` object becomes a record threaded
explicitly, Python `assert` failures become `Option.none`, and dates are
modelled by their `toordinal()` value as a `Nat` (Python `date` objects
are totally ordered by their ordinal, and the median arithmetic in the
source only ever adds a non-negative, floor-halved day gap, which is
exactly `Nat` floor division — see the comments at `median_of_dates`).
The `clone_sizes` `defaultdict` histogram (size ↦ number of distinct
clone ids having that size) is represented by the list of the sizes
recorded into it, one entry per distinct id processed; the dict is the
multiset of this list, so the sum of the histogram values is the length
of this list and the size-weighted histogram sum is its sum.
-/

namespace Subsampling

/-- The `Sequence` record from `subsampling.py` (`clone_id`, `defect`, `date`).
The Python `date=None` default is only exercised on paths that never read
the date, so the field is modelled as an always-present ordinal. -/
structure Sequence where
  clone_id : String
  defect : String
  date : Nat
deriving DecidableEq, Repr

/-- The clone ids of a list of sequences, in order
(`[sequence.clone_id for sequence in sequences]`). -/
def cloneIds (l : List Sequence) : List String :=
  l.map (fun q => q.clone_id)

/-- The `SequenceList` state: the record list plus the bookkeeping counters of
`SequenceList.__init__`. -/
structure SequenceList where
  sequences : List Sequence
  unique_counter : Nat
  clone_counter : Nat
  distinct_counter : Nat
  clone_sizes : List Nat
deriving DecidableEq, Repr

/-- Model of `SequenceList.__init__`: everything empty / zero. -/
def SequenceList.empty : SequenceList :=
  { sequences := [], unique_counter := 0, clone_counter := 0,
    distinct_counter := 0, clone_sizes := [] }

/-- Model of `SequenceList.add_initial_sequence`.  The two `assert` statements become
`none`.  In the sentinel branch the synthetic id uses the pre-increment
`unique_counter` (Python reads `self.unique_counter` before `+= 1`); the
assertion `frequency == 1` aborts the call, so the mutation it would have
left behind is not observable through this embedding.  `range(0, frequency)`
appends `frequency` copies. -/
def SequenceList.add_initial_sequence (s : SequenceList) (clone_id defect : String)
    (frequency : Nat) (date : Nat) : Option SequenceList :=
  if clone_id = "unique" then
    if frequency = 1 then
      let cid := "unique" ++ toString s.unique_counter
      some { s with
        sequences := s.sequences ++ List.replicate frequency ⟨cid, defect, date⟩,
        unique_counter := s.unique_counter + 1,
        distinct_counter := s.distinct_counter + 1 }
    else none
  else if clone_id ∈ cloneIds s.sequences then none
  else
    some { s with
      sequences := s.sequences ++ List.replicate frequency ⟨clone_id, defect, date⟩,
      clone_counter := s.clone_counter + 1,
      distinct_counter := s.distinct_counter + 1 }

/-- Model of `SequenceList.add_many_sequences`.  `self.sequences = sequence_list`
replaces the records; `distinct_counter` is set to the size of the id set;
`unique_counter`, `clone_counter` and `clone_sizes` are *incremented* on
top of their previous values, one contribution per distinct id (the
`counted_clones` guard in the source is vacuous because the loop runs over
the set of ids, visiting each id once).  The Python set comprehension is
modelled by `dedup`; each derived quantity below is order-independent. -/
def SequenceList.add_many_sequences (s : SequenceList) (sequence_list : List Sequence) :
    SequenceList :=
  let ids := cloneIds sequence_list
  let distinct_sequences := ids.dedup
  { sequences := sequence_list,
    distinct_counter := distinct_sequences.length,
    unique_counter := s.unique_counter +
      (distinct_sequences.filter (fun cid => ids.count cid == 1)).length,
    clone_counter := s.clone_counter +
      (distinct_sequences.filter (fun cid => ids.count cid != 1)).length,
    clone_sizes := s.clone_sizes ++ distinct_sequences.map (fun cid => ids.count cid) }

/-- Model of `SequenceList.add_many_sequences_to_existing`: append the new records and
recompute only `distinct_counter` from the combined record list. -/
def SequenceList.add_many_sequences_to_existing (s : SequenceList)
    (sequence_list : List Sequence) : SequenceList :=
  let newseqs := s.sequences ++ sequence_list
  { s with sequences := newseqs,
           distinct_counter := (cloneIds newseqs).dedup.length }

/-- Loop body of `SequenceList.get_dates`: walk the records in order, keeping
the first-encountered date of each clone id (`sampled_ids` is the set of ids
already seen, modelled as a list). -/
def get_dates_aux : List Sequence → List String → List Nat
  | [], _ => []
  | q :: rest, sampled_ids =>
    if q.clone_id ∈ sampled_ids then get_dates_aux rest sampled_ids
    else q.date :: get_dates_aux rest (q.clone_id :: sampled_ids)

/-- Model of `SequenceList.get_dates`: one ordinal date per distinct clone id, taken
from the first record carrying that id. -/
def SequenceList.get_dates (s : SequenceList) : List Nat :=
  get_dates_aux s.sequences []

/-- The median computation shared verbatim by `get_median_date` and
`get_median_date_of_distinct_sequences` in the source: sort, then for even
length return `dates[n/2] + (dates[n/2+1] - dates[n/2])/2` and for odd length
return `dates[n/2]`.  An out-of-range index (Python `IndexError`) is `none`.
Halving is `Nat` floor division: in the source the even branch yields
`left + (right-left)/2` where an odd gap gives a half-day that the Python
`date + timedelta` drops (`get_median_date`) or `int()` truncates
(`get_median_date_of_distinct_sequences`) — both floor, since the sorted
gap is non-negative. -/
def median_of_dates (dates : List Nat) : Option Nat :=
  let ds := List.insertionSort (· ≤ ·) dates
  let length := ds.length
  if length % 2 = 0 then
    match ds[length / 2]?, ds[length / 2 + 1]? with
    | some left, some right => some (left + (right - left) / 2)
    | _, _ => none
  else ds[length / 2]?

/-- Model of `SequenceList.get_median_date`: median over the dates of all
records,
duplicates included. -/
def SequenceList.get_median_date (s : SequenceList) : Option Nat :=
  median_of_dates (s.sequences.map (fun q => q.date))

/-- Model of `SequenceList.get_median_date_of_distinct_sequences`: the same median
rule over one date per distinct clone id. -/
def SequenceList.get_median_date_of_distinct_sequences (s : SequenceList) : Option Nat :=
  median_of_dates s.get_dates

/-- The sorted list `dates` that `get_median_date` indexes into. -/
def sorted_all_dates (s : SequenceList) : List Nat :=
  List.insertionSort (· ≤ ·) (s.sequences.map (fun q => q.date))

/-- The sorted list `dates` that `get_median_date_of_distinct_sequences`
indexes into. -/
def sorted_distinct_dates (s : SequenceList) : List Nat :=
  List.insertionSort (· ≤ ·) s.get_dates

/-- Model of `get_defect_stats`: partition the records by `defect == given` /
`defect != given` and bulk-build a fresh collection from each side. -/
def get_defect_stats (sequences : List Sequence) (defect : String) :
    SequenceList × SequenceList :=
  (SequenceList.empty.add_many_sequences
      (sequences.filter (fun q => q.defect == defect)),
   SequenceList.empty.add_many_sequences
      (sequences.filter (fun q => q.defect != defect)))

/-- The documented bookkeeping invariant of a collection. -/
def SequenceList.countInvariant (s : SequenceList) : Prop :=
  s.distinct_counter = s.unique_counter + s.clone_counter

instance (s : SequenceList) : Decidable s.countInvariant := by
  unfold SequenceList.countInvariant; infer_instance

/-- A whole incremental-construction run: fold `add_initial_sequence` over a
list of `(clone_id, defect, frequency, date)` calls, propagating failure. -/
def apply_initial_ops : SequenceList → List (String × String × Nat × Nat) →
    Option SequenceList
  | s, [] => some s
  | s, (cid, defect, freq, dt) :: rest =>
    (s.add_initial_sequence cid defect freq dt).bind
      (fun s2 => apply_initial_ops s2 rest)

/-- Helper: `add_initial_sequence` always adds exactly one distinct id and exactly one
of the unique / clone counters, so it preserves the count invariant. -/
theorem add_initial_sequence_countInvariant {s t : SequenceList}
    (hs : s.countInvariant) {cid defect : String} {freq dt : Nat}
    (h : s.add_initial_sequence cid defect freq dt = some t) : t.countInvariant := by
  unfold SequenceList.add_initial_sequence at h
  unfold SequenceList.countInvariant at hs ⊢
  split at h
  · split at h
    · cases h
      simp only
      omega
    · cases h
  · split at h
    · cases h
    · cases h
      simp only
      omega

/-- Helper: `apply_initial_ops` preserves the count invariant along the whole run. -/
theorem apply_initial_ops_countInvariant :
    ∀ (ops : List (String × String × Nat × Nat)) {s t : SequenceList},
      s.countInvariant → apply_initial_ops s ops = some t → t.countInvariant
  | [], _, _, hs, h => by cases h; exact hs
  | (cid, defect, freq, dt) :: rest, s, t, hs, h => by
    unfold apply_initial_ops at h
    cases h2 : s.add_initial_sequence cid defect freq dt with
    | none => rw [h2] at h; cases h
    | some s2 =>
      rw [h2] at h
      exact apply_initial_ops_countInvariant rest
        (add_initial_sequence_countInvariant hs h2) h

/-- Splitting a list by a `Bool` predicate splits its length. -/
theorem length_filter_add_length_filter_not (l : List String) (f : String → Bool) :
    (l.filter f).length + (l.filter (fun x => !f x)).length = l.length :=
  (List.length_eq_length_filter_add f).symm

/-- Bulk construction on a *fresh* collection satisfies the count invariant:
each distinct id lands in exactly one of the unique / clonal buckets. -/
theorem add_many_sequences_fresh_countInvariant (rs : List Sequence) :
    (SequenceList.empty.add_many_sequences rs).countInvariant := by
  unfold SequenceList.add_many_sequences SequenceList.empty SequenceList.countInvariant
  simp only [Nat.zero_add]
  exact (length_filter_add_length_filter_not (cloneIds rs).dedup
    (fun cid => (cloneIds rs).count cid == 1)).symm

/-- C1 (counterexample): `extend_with_records` recomputes `distinct_count`
but leaves `unique_count` and `clone_count` untouched, so one such call on a
fresh collection already violates `distinct_count == unique_count + clone_count`. -/
theorem c1_invariant_counterexample :
    ¬ (SequenceList.empty.add_many_sequences_to_existing
        [⟨"a", "intact", 0⟩]).countInvariant := by
  decide

/-- C1 (amended): the invariant `distinct_count == unique_count + clone_count`
holds after every sequence of `create_empty` / `append_group` operations, and
after `build_from_records` on a freshly created collection; it can fail once
`extend_with_records` is involved. -/
theorem c1_invariant_amended :
    (∀ (ops : List (String × String × Nat × Nat)) (s : SequenceList),
        apply_initial_ops SequenceList.empty ops = some s → s.countInvariant) ∧
    (∀ rs : List Sequence, (SequenceList.empty.add_many_sequences rs).countInvariant) :=
  ⟨fun ops s h => apply_initial_ops_countInvariant ops (by decide) h,
   add_many_sequences_fresh_countInvariant⟩

/-- C1 (witness): a concrete incremental run and a concrete fresh bulk build,
both satisfying the invariant via `c1_invariant_amended`. -/
theorem c1_invariant_amended_witness :
    apply_initial_ops SequenceList.empty
        [("unique", "intact", 1, 0), ("clone1", "intact", 3, 0)] =
      some ⟨[⟨"unique0", "intact", 0⟩, ⟨"clone1", "intact", 0⟩,
             ⟨"clone1", "intact", 0⟩, ⟨"clone1", "intact", 0⟩], 1, 1, 2, []⟩ ∧
    SequenceList.countInvariant
      ⟨[⟨"unique0", "intact", 0⟩, ⟨"clone1", "intact", 0⟩,
        ⟨"clone1", "intact", 0⟩, ⟨"clone1", "intact", 0⟩], 1, 1, 2, []⟩ ∧
    (SequenceList.empty.add_many_sequences
        [⟨"a", "intact", 0⟩, ⟨"a", "intact", 0⟩, ⟨"b", "intact", 0⟩]).countInvariant :=
  ⟨by decide,
   c1_invariant_amended.1 [("unique", "intact", 1, 0), ("clone1", "intact", 3, 0)]
     ⟨[⟨"unique0", "intact", 0⟩, ⟨"clone1", "intact", 0⟩,
       ⟨"clone1", "intact", 0⟩, ⟨"clone1", "intact", 0⟩], 1, 1, 2, []⟩ (by decide),
   c1_invariant_amended.2 [⟨"a", "intact", 0⟩, ⟨"a", "intact", 0⟩, ⟨"b", "intact", 0⟩]⟩

/-- C2 (counterexample): a collection on which `build_from_records` has been
invoked (here: for the second time) violating all three equations — the
counters and the histogram accumulate across calls while `distinct_count`
and the record list are replaced. -/
theorem c2_equations_counterexample :
    ¬ (((SequenceList.empty.add_many_sequences
          [⟨"a", "intact", 0⟩, ⟨"a", "intact", 0⟩]).add_many_sequences
          [⟨"b", "intact", 0⟩]).countInvariant ∧
       ((SequenceList.empty.add_many_sequences
          [⟨"a", "intact", 0⟩, ⟨"a", "intact", 0⟩]).add_many_sequences
          [⟨"b", "intact", 0⟩]).clone_sizes.length =
        ((SequenceList.empty.add_many_sequences
          [⟨"a", "intact", 0⟩, ⟨"a", "intact", 0⟩]).add_many_sequences
          [⟨"b", "intact", 0⟩]).distinct_counter ∧
       ((SequenceList.empty.add_many_sequences
          [⟨"a", "intact", 0⟩, ⟨"a", "intact", 0⟩]).add_many_sequences
          [⟨"b", "intact", 0⟩]).clone_sizes.sum =
        ((SequenceList.empty.add_many_sequences
          [⟨"a", "intact", 0⟩, ⟨"a", "intact", 0⟩]).add_many_sequences
          [⟨"b", "intact", 0⟩]).sequences.length) := by
  decide

/-- C2 (amended): for a *freshly created* collection built once via
`build_from_records`, all three spec equations hold:
`distinct_count = unique_count + clone_count`, the histogram value sum
(its length in the multiset encoding) is `distinct_count`, and the
size-weighted histogram sum is the total record count. -/
theorem c2_equations_amended (rs : List Sequence) :
    (SequenceList.empty.add_many_sequences rs).countInvariant ∧
    (SequenceList.empty.add_many_sequences rs).clone_sizes.length =
      (SequenceList.empty.add_many_sequences rs).distinct_counter ∧
    (SequenceList.empty.add_many_sequences rs).clone_sizes.sum =
      (SequenceList.empty.add_many_sequences rs).sequences.length := by
  refine ⟨add_many_sequences_fresh_countInvariant rs, ?_, ?_⟩
  · simp [SequenceList.add_many_sequences, SequenceList.empty]
  · have h := List.sum_map_count_dedup_eq_length (cloneIds rs)
    simp only [SequenceList.add_many_sequences, SequenceList.empty]
    simpa [cloneIds] using h

/-- C3 (counterexample): `build_from_records` does not fully replace prior
content — `unique_count` keeps the contribution of the previous call, so the
result differs from a fresh bulk build of the same records. -/
theorem c3_overwrite_counterexample :
    ((SequenceList.empty.add_many_sequences [⟨"x", "intact", 0⟩]).add_many_sequences
        [⟨"y", "intact", 0⟩]).unique_counter ≠
      (SequenceList.empty.add_many_sequences [⟨"y", "intact", 0⟩]).unique_counter := by
  decide

/-- C3 (amended): `build_from_records` replaces the record list and recomputes
`distinct_count` as a fresh build would, but `unique_count`, `clone_count`
and the clone-size histogram are *added on top of* their prior values, so
they match a fresh build only when the prior counters are zero / empty. -/
theorem c3_overwrite_amended (s : SequenceList) (rs : List Sequence) :
    (s.add_many_sequences rs).sequences = rs ∧
    (s.add_many_sequences rs).distinct_counter =
      (SequenceList.empty.add_many_sequences rs).distinct_counter ∧
    (s.add_many_sequences rs).unique_counter =
      s.unique_counter + (SequenceList.empty.add_many_sequences rs).unique_counter ∧
    (s.add_many_sequences rs).clone_counter =
      s.clone_counter + (SequenceList.empty.add_many_sequences rs).clone_counter ∧
    (s.add_many_sequences rs).clone_sizes =
      s.clone_sizes ++ (SequenceList.empty.add_many_sequences rs).clone_sizes := by
  simp [SequenceList.add_many_sequences, SequenceList.empty]

/-- C4: `append_group` fails exactly when the sentinel id comes with a
frequency other than 1, or a non-sentinel id is already present among the
records of the collection; in every other case the call succeeds. -/
theorem c4_append_group_failure_iff (s : SequenceList) (clone_id defect : String)
    (frequency dt : Nat) :
    (s.add_initial_sequence clone_id defect frequency dt).isSome ↔
      ¬ (clone_id = "unique" ∧ frequency ≠ 1) ∧
      ¬ (clone_id ≠ "unique" ∧ clone_id ∈ cloneIds s.sequences) := by
  unfold SequenceList.add_initial_sequence
  by_cases h1 : clone_id = "unique" <;>
    by_cases h2 : frequency = 1 <;>
      by_cases h3 : clone_id ∈ cloneIds s.sequences <;>
        simp [h1, h2, h3]

/-- C10: the sentinel branch never checks the synthesized id for collisions:
after `append_group("unique0", …, 1)` then `append_group("unique", …, 1)` on a
fresh collection, both records carry clone id `unique0`, yet
`distinct_counter` is 2 while only 1 distinct id is actually present. -/
theorem c10_synthetic_id_collision :
    ((SequenceList.empty.add_initial_sequence "unique0" "d" 1 0).bind
        (fun s => s.add_initial_sequence "unique" "d2" 1 0)).map
        (fun s => (cloneIds s.sequences, s.distinct_counter,
                   (cloneIds s.sequences).dedup.length)) =
      some (["unique0", "unique0"], 2, 1) := by
  decide

/-- Even-length case of the shared median computation, in terms of the sorted
entries of the sorted list (both central indices must be in range). -/
theorem median_of_dates_even (dates : List Nat)
    (heven : (List.insertionSort (· ≤ ·) dates).length % 2 = 0)
    (hlt : (List.insertionSort (· ≤ ·) dates).length / 2 + 1 <
           (List.insertionSort (· ≤ ·) dates).length) :
    median_of_dates dates =
      some ((List.insertionSort (· ≤ ·) dates).getD
          ((List.insertionSort (· ≤ ·) dates).length / 2) 0 +
        ((List.insertionSort (· ≤ ·) dates).getD
            ((List.insertionSort (· ≤ ·) dates).length / 2 + 1) 0 -
          (List.insertionSort (· ≤ ·) dates).getD
            ((List.insertionSort (· ≤ ·) dates).length / 2) 0) / 2) := by
  have hlt' : (List.insertionSort (· ≤ ·) dates).length / 2 <
      (List.insertionSort (· ≤ ·) dates).length := by omega
  unfold median_of_dates
  simp only [heven, if_pos, List.getElem?_eq_getElem hlt, List.getElem?_eq_getElem hlt',
    List.getD_eq_getElem?_getD, Option.getD_some]

/-- Odd-length case of the shared median computation. -/
theorem median_of_dates_odd (dates : List Nat)
    (hodd : (List.insertionSort (· ≤ ·) dates).length % 2 = 1) :
    median_of_dates dates =
      some ((List.insertionSort (· ≤ ·) dates).getD
          ((List.insertionSort (· ≤ ·) dates).length / 2) 0) := by
  have hpos : 0 < (List.insertionSort (· ≤ ·) dates).length := by omega
  have hlt : (List.insertionSort (· ≤ ·) dates).length / 2 <
      (List.insertionSort (· ≤ ·) dates).length := Nat.div_lt_self hpos (by omega)
  unfold median_of_dates
  have hne : ¬ (List.insertionSort (· ≤ ·) dates).length % 2 = 0 := by omega
  simp only [hne, if_false, List.getElem?_eq_getElem hlt,
    List.getD_eq_getElem?_getD, Option.getD_some]

/-- C5: both median functions implement the `n/2` / `n/2 + 1` midpoint rule
on their sorted date lists — for even length the element at index `n/2` plus
the floor-halved gap to the element at index `n/2 + 1` (whenever that index
is in range), for odd length the element at index `n/2`. -/
theorem c5_median_midpoint_rule (s : SequenceList) :
    ((sorted_all_dates s).length % 2 = 0 →
      (sorted_all_dates s).length / 2 + 1 < (sorted_all_dates s).length →
      s.get_median_date =
        some ((sorted_all_dates s).getD ((sorted_all_dates s).length / 2) 0 +
          ((sorted_all_dates s).getD ((sorted_all_dates s).length / 2 + 1) 0 -
            (sorted_all_dates s).getD ((sorted_all_dates s).length / 2) 0) / 2)) ∧
    ((sorted_all_dates s).length % 2 = 1 →
      s.get_median_date =
        some ((sorted_all_dates s).getD ((sorted_all_dates s).length / 2) 0)) ∧
    ((sorted_distinct_dates s).length % 2 = 0 →
      (sorted_distinct_dates s).length / 2 + 1 < (sorted_distinct_dates s).length →
      s.get_median_date_of_distinct_sequences =
        some ((sorted_distinct_dates s).getD ((sorted_distinct_dates s).length / 2) 0 +
          ((sorted_distinct_dates s).getD ((sorted_distinct_dates s).length / 2 + 1) 0 -
            (sorted_distinct_dates s).getD ((sorted_distinct_dates s).length / 2) 0) / 2)) ∧
    ((sorted_distinct_dates s).length % 2 = 1 →
      s.get_median_date_of_distinct_sequences =
        some ((sorted_distinct_dates s).getD ((sorted_distinct_dates s).length / 2) 0)) := by
  refine ⟨fun h1 h2 => ?_, fun h1 => ?_, fun h1 h2 => ?_, fun h1 => ?_⟩
  · exact median_of_dates_even _ h1 h2
  · exact median_of_dates_odd _ h1
  · exact median_of_dates_even _ h1 h2
  · exact median_of_dates_odd _ h1

/-- C5 (witness): both functions evaluated on a four-record and on a
three-record collection with all-distinct ids, hypotheses checked by
`decide`; sorted dates `[1, 3, 5, 11]` give `5 + (11 - 5)/2 = 8`, and
`[1, 5, 9]` gives `5`. -/
theorem c5_median_midpoint_rule_witness :
    (SequenceList.get_median_date
        ⟨[⟨"a", "d", 5⟩, ⟨"b", "d", 1⟩, ⟨"c", "d", 11⟩, ⟨"e", "d", 3⟩], 0, 0, 0, []⟩ =
      some 8) ∧
    (SequenceList.get_median_date
        ⟨[⟨"a", "d", 9⟩, ⟨"b", "d", 1⟩, ⟨"c", "d", 5⟩], 0, 0, 0, []⟩ = some 5) ∧
    (SequenceList.get_median_date_of_distinct_sequences
        ⟨[⟨"a", "d", 5⟩, ⟨"b", "d", 1⟩, ⟨"c", "d", 11⟩, ⟨"e", "d", 3⟩], 0, 0, 0, []⟩ =
      some 8) ∧
    (SequenceList.get_median_date_of_distinct_sequences
        ⟨[⟨"a", "d", 9⟩, ⟨"b", "d", 1⟩, ⟨"c", "d", 5⟩], 0, 0, 0, []⟩ = some 5) := by
  refine ⟨?_, ?_, ?_, ?_⟩
  · rw [(c5_median_midpoint_rule _).1 (by decide) (by decide)]; decide
  · rw [(c5_median_midpoint_rule _).2.1 (by decide)]; decide
  · rw [(c5_median_midpoint_rule _).2.2.1 (by decide) (by decide)]; decide
  · rw [(c5_median_midpoint_rule _).2.2.2 (by decide)]; decide

/-- On a two-element date list the even branch reads index `2/2 + 1 = 2`,
which is out of range: the Python code raises `IndexError`, modelled as
`none`. -/
theorem median_of_dates_length_two (dates : List Nat) (h : dates.length = 2) :
    median_of_dates dates = none := by
  have hlen : (List.insertionSort (· ≤ ·) dates).length = 2 := by
    rw [List.length_insertionSort]; exact h
  have h2 : (List.insertionSort (· ≤ ·) dates)[2]? = none :=
    List.getElem?_eq_none (by omega)
  simp only [median_of_dates, hlen]
  norm_num
  rw [h2]
  cases h1 : (List.insertionSort (· ≤ ·) dates)[1]? <;> simp

/-- Helper: `get_dates_aux` produces one date per clone id of `l` not yet in `seen`. -/
theorem get_dates_aux_length (l : List Sequence) (seen : List String) :
    (get_dates_aux l seen).length =
      ((cloneIds l).toFinset \ seen.toFinset).card := by
  induction l generalizing seen with
  | nil => simp [get_dates_aux, cloneIds]
  | cons q rest ih =>
    have hids : (cloneIds (q :: rest)).toFinset =
        insert q.clone_id (cloneIds rest).toFinset := by
      simp [cloneIds]
    unfold get_dates_aux
    by_cases h : q.clone_id ∈ seen
    · rw [if_pos h, ih, hids,
        Finset.insert_sdiff_of_mem _ (List.mem_toFinset.mpr h)]
    · rw [if_neg h]
      simp only [List.length_cons, ih, hids]
      have hseen : (q.clone_id :: seen).toFinset =
          insert q.clone_id seen.toFinset := by simp
      rw [hseen, Finset.sdiff_insert,
        Finset.insert_sdiff_of_not_mem _ (fun hc => h (List.mem_toFinset.mp hc))]
      by_cases hm : q.clone_id ∈ (cloneIds rest).toFinset \ seen.toFinset
      · have hpos : 0 < ((cloneIds rest).toFinset \ seen.toFinset).card :=
          Finset.card_pos.mpr ⟨q.clone_id, hm⟩
        rw [Finset.card_insert_of_mem hm, Finset.card_erase_of_mem hm]
        omega
      · rw [Finset.card_insert_of_not_mem hm, Finset.erase_eq_of_not_mem hm]

/-- Helper: `get_dates` yields exactly one date per distinct clone id. -/
theorem get_dates_length (s : SequenceList) :
    s.get_dates.length = (cloneIds s.sequences).dedup.length := by
  rw [SequenceList.get_dates, get_dates_aux_length]
  simp [List.card_toFinset]

/-- C9: both median functions hit the out-of-range index `n/2 + 1 = 2` on a
length-two date list — a collection with exactly two records makes
`get_median_date` fail, and a collection with exactly two distinct clone ids
makes `get_median_date_of_distinct_sequences` fail. -/
theorem c9_median_index_error (s : SequenceList) :
    (s.sequences.length = 2 → s.get_median_date = none) ∧
    ((cloneIds s.sequences).dedup.length = 2 →
      s.get_median_date_of_distinct_sequences = none) := by
  constructor
  · intro h
    exact median_of_dates_length_two _ (by simpa using h)
  · intro h
    exact median_of_dates_length_two _ (by rw [get_dates_length, h])

/-- C9 (witness): a concrete two-record, two-distinct-id collection on which
both median functions fail. -/
theorem c9_median_index_error_witness :
    ((⟨[⟨"a", "d", 3⟩, ⟨"b", "d", 7⟩], 0, 0, 0, []⟩ : SequenceList).sequences.length = 2) ∧
    ((cloneIds (⟨[⟨"a", "d", 3⟩, ⟨"b", "d", 7⟩], 0, 0, 0, []⟩ :
        SequenceList).sequences).dedup.length = 2) ∧
    (SequenceList.get_median_date ⟨[⟨"a", "d", 3⟩, ⟨"b", "d", 7⟩], 0, 0, 0, []⟩ = none) ∧
    (SequenceList.get_median_date_of_distinct_sequences
        ⟨[⟨"a", "d", 3⟩, ⟨"b", "d", 7⟩], 0, 0, 0, []⟩ = none) :=
  ⟨by decide, by decide,
   (c9_median_index_error _).1 (by decide),
   (c9_median_index_error _).2 (by decide)⟩

/-- C8: `get_defect_stats` splits the records into matching / non-matching
collections whose combined record multiset is the original one — nothing
lost, nothing duplicated. -/
theorem c8_partition_preserves_multiset (sequences : List Sequence) (defect : String) :
    (((get_defect_stats sequences defect).1.sequences ++
        (get_defect_stats sequences defect).2.sequences : List Sequence) :
      Multiset Sequence) = (sequences : Multiset Sequence) := by
  show ((sequences.filter (fun q => q.defect == defect) ++
      sequences.filter (fun q => q.defect != defect) : List Sequence) :
    Multiset Sequence) = _
  exact Multiset.coe_eq_coe.mpr (List.filter_append_perm _ _)

/-! ## Distinct-count-targeted resampling (`do_subsampling_dates` inner loop)

The `while sampled_sequences.distinct_counter < sampling_depth` loop.
`random.choices(sequences.sequences, k=number_missing)` is modelled by a
draw oracle `draw i k` (the records returned at loop pass `i` when `k` are
requested); `random.choices` guarantees exactly `k` results, each an element
of the pool, which become hypotheses of the theorems. -/

/-- One pass of the accumulation loop: if the target is not yet reached,
draw the missing number of records and extend, otherwise leave the state
unchanged (the `while` guard fails and the loop exits). -/
def sampling_step (depth : Nat) (draw : Nat → Nat → List Sequence)
    (s : SequenceList) (i : Nat) : SequenceList :=
  if s.distinct_counter < depth then
    s.add_many_sequences_to_existing (draw i (depth - s.distinct_counter))
  else s

/-- The state of the accumulating collection after `n` passes, starting from
the fresh `SequenceList()` of the source. -/
def sampling_loop (depth : Nat) (draw : Nat → Nat → List Sequence) :
    Nat → SequenceList
  | 0 => SequenceList.empty
  | n + 1 => sampling_step depth draw (sampling_loop depth draw n) n

/-- Every record accumulated by the loop comes out of the draw oracle. -/
theorem sampling_loop_mem (pool : List Sequence) (depth : Nat)
    (draw : Nat → Nat → List Sequence)
    (hmem : ∀ i k, ∀ q ∈ draw i k, q ∈ pool) :
    ∀ n, ∀ q ∈ (sampling_loop depth draw n).sequences, q ∈ pool := by
  intro n
  induction n with
  | zero => intro q hq; cases hq
  | succ n ih =>
    intro q hq
    unfold sampling_loop sampling_step at hq
    split at hq
    · rcases List.mem_append.mp hq with h | h
      · exact ih q h
      · exact hmem n _ q h
    · exact ih q hq

/-- After any pass, `distinct_counter` is the number of distinct clone ids
actually present (it starts at 0 on the empty list and
`add_many_sequences_to_existing` recomputes it). -/
theorem sampling_loop_distinct (depth : Nat) (draw : Nat → Nat → List Sequence) :
    ∀ n, (sampling_loop depth draw n).distinct_counter =
      (cloneIds (sampling_loop depth draw n).sequences).dedup.length := by
  intro n
  induction n with
  | zero => rfl
  | succ n ih =>
    unfold sampling_loop sampling_step
    split
    · rfl
    · exact ih

/-- A list whose members all occur in another list has at most as many
distinct elements. -/
theorem dedup_length_le_of_subset {l1 l2 : List String}
    (h : ∀ x ∈ l1, x ∈ l2) : l1.dedup.length ≤ l2.dedup.length := by
  rw [← List.card_toFinset, ← List.card_toFinset]
  exact Finset.card_le_card
    (fun x hx => List.mem_toFinset.mpr (h x (List.mem_toFinset.mp hx)))

/-- C6: in the distinct-count-targeted loop, (i) every pass taken while the
target is unmet draws and appends exactly `depth - distinct_counter` records,
(ii) once `distinct_counter` reaches the target the state never changes again
(the loop stops exactly then), and (iii) if the pool holds fewer distinct
clone ids than the target, the guard holds after every number of passes —
the loop never terminates, and no iteration bound interferes. -/
theorem c6_distinct_targeted_loop (pool : SequenceList) (depth : Nat)
    (draw : Nat → Nat → List Sequence)
    (hlen : ∀ i k, (draw i k).length = k)
    (hmem : ∀ i k, ∀ q ∈ draw i k, q ∈ pool.sequences) :
    (∀ n, (sampling_loop depth draw n).distinct_counter < depth →
      (sampling_loop depth draw (n + 1)).sequences =
        (sampling_loop depth draw n).sequences ++
          draw n (depth - (sampling_loop depth draw n).distinct_counter) ∧
      (draw n (depth - (sampling_loop depth draw n).distinct_counter)).length =
        depth - (sampling_loop depth draw n).distinct_counter) ∧
    (∀ n, ¬ (sampling_loop depth draw n).distinct_counter < depth →
      sampling_loop depth draw (n + 1) = sampling_loop depth draw n) ∧
    ((cloneIds pool.sequences).dedup.length < depth →
      ∀ n, (sampling_loop depth draw n).distinct_counter < depth) := by
  refine ⟨fun n hguard => ?_, fun n hguard => ?_, fun hdef n => ?_⟩
  · constructor
    · show (sampling_step depth draw (sampling_loop depth draw n) n).sequences = _
      rw [sampling_step, if_pos hguard]
      rfl
    · exact hlen n _
  · show sampling_step depth draw (sampling_loop depth draw n) n = _
    rw [sampling_step, if_neg hguard]
  · rw [sampling_loop_distinct]
    have hsub : ∀ x ∈ cloneIds (sampling_loop depth draw n).sequences,
        x ∈ cloneIds pool.sequences := by
      intro x hx
      rcases List.mem_map.mp hx with ⟨q, hq, rfl⟩
      exact List.mem_map.mpr
        ⟨q, sampling_loop_mem pool.sequences depth draw hmem n q hq, rfl⟩
    exact lt_of_le_of_lt (dedup_length_le_of_subset hsub) hdef

/-- A one-record pool for the C6 witness. -/
def single_pool : SequenceList := ⟨[⟨"p", "d", 0⟩], 0, 0, 1, []⟩

/-- A draw oracle for the C6 witness: always hand back the requested number
of copies of the single pool record. -/
def replicate_draw : Nat → Nat → List Sequence :=
  fun _ k => List.replicate k ⟨"p", "d", 0⟩

/-- C6 (witness): with a single-record pool and target 2, the oracle
hypotheses hold, the first pass appends exactly the 2 missing records, and
after 7 passes the guard still holds (the loop has not terminated). -/
theorem c6_distinct_targeted_loop_witness :
    ((sampling_loop 2 replicate_draw 1).sequences =
      (sampling_loop 2 replicate_draw 0).sequences ++
        replicate_draw 0 (2 - (sampling_loop 2 replicate_draw 0).distinct_counter) ∧
     (replicate_draw 0 (2 - (sampling_loop 2 replicate_draw 0).distinct_counter)).length =
       2 - (sampling_loop 2 replicate_draw 0).distinct_counter) ∧
    (sampling_loop 2 replicate_draw 7).distinct_counter < 2 := by
  have h := c6_distinct_targeted_loop single_pool 2 replicate_draw
    (fun i k => List.length_replicate k _)
    (fun i k q hq => by
      rw [List.eq_of_mem_replicate hq]
      exact List.mem_singleton.mpr rfl)
  exact ⟨h.1 0 (by decide), h.2.2 (by decide) 7⟩

/-! ## Defect-mode aggregation (`do_subsampling` / `calculate_stats`)

Replicate statistics are exact rationals; `scipy.stats.fisher_exact` and
`numpy.std` are external black boxes, modelled as oracle parameters
(`fisher`, `stdFn`).  Python runtime failures along the aggregation path are
`Except` errors: `sum(entry)/len(entry)` on an empty column raises
`ZeroDivisionError` and `means[i]` on a too-short list raises `IndexError`. -/

/-- The two runtime failures reachable in the aggregation code path. -/
inductive AggError where
  | zeroDivisionError
  | indexError
deriving DecidableEq, Repr

/-- One emitted per-iteration row of the defect-mode report (`iteration` is
the 1-based index written to the `iteration` column). -/
structure ReplicaRow where
  iteration : Nat
  unique : ℚ
  clones : ℚ
  odds_ratio : ℚ
  p_value : ℚ
deriving DecidableEq, Repr

/-- Loop body of `do_subsampling`: build a fresh collection from the drawn
records (`sample i` models `random.choices(sequences.sequences, k=...)`),
read off its unique / clonal counters, and ask the Fisher oracle about the
table `[[defect_clonal, sampled_clonal], [defect_unique, sampled_unique]]`. -/
def replica_row (defect_clonal defect_unique : Nat)
    (fisher : Nat → Nat → Nat → Nat → ℚ × ℚ)
    (sample : Nat → List Sequence) (i : Nat) : ReplicaRow :=
  let sampled_sequences := SequenceList.empty.add_many_sequences (sample i)
  let stats := fisher defect_clonal sampled_sequences.clone_counter
    defect_unique sampled_sequences.unique_counter
  { iteration := i + 1,
    unique := (sampled_sequences.unique_counter : ℚ),
    clones := (sampled_sequences.clone_counter : ℚ),
    odds_ratio := stats.1,
    p_value := stats.2 }

/-- The `all_stats` defaultdict after the loop: `add_all_data` inserts the
keys `unique`, `clonal`, `odds_ratio`, `p_value` in that order on the first
iteration, appending one value per row; with zero iterations the dict stays
empty and has no columns at all. -/
def all_stats_columns (rows : List ReplicaRow) : List (List ℚ) :=
  if rows.isEmpty then []
  else [rows.map (fun r => r.unique), rows.map (fun r => r.clones),
        rows.map (fun r => r.odds_ratio), rows.map (fun r => r.p_value)]

/-- Model of `calculate_stats`: per column, the mean `sum(entry)/len(entry)` (a
`ZeroDivisionError` when a column is empty) and the black-box `numpy.std`
value. -/
def calculate_stats (stdFn : List ℚ → ℚ) (all_stats : List (List ℚ)) :
    Except AggError (List ℚ × List ℚ) :=
  if all_stats.any (fun entry => entry.isEmpty) then .error .zeroDivisionError
  else .ok (all_stats.map (fun entry => entry.sum / (entry.length : ℚ)),
            all_stats.map stdFn)

/-- The values of the two summary rows and the streamed per-iteration rows
of one defect-mode report (`iteration` labels `averages` /
`standard deviations` are fixed strings and carry no content). -/
structure SubsamplingOutput where
  rows : List ReplicaRow
  averages : ℚ × ℚ × ℚ × ℚ
  standard_deviations : ℚ × ℚ × ℚ × ℚ
deriving DecidableEq, Repr

/-- All rows streamed by the `for i in range(0, num_replicas)` loop. -/
def replica_rows (defect_seqs : SequenceList)
    (fisher : Nat → Nat → Nat → Nat → ℚ × ℚ) (sample : Nat → List Sequence)
    (num_replicas : Nat) : List ReplicaRow :=
  (List.range num_replicas).map
    (replica_row defect_seqs.clone_counter defect_seqs.unique_counter fisher sample)

/-- Model of `do_subsampling`: run `num_replicas` replicate iterations, then build the
`averages` and `standard deviations` rows from `calculate_stats`; the
`means[0] .. standard_deviations[3]` list accesses raise `IndexError` when
out of range. -/
def do_subsampling (defect_seqs : SequenceList)
    (fisher : Nat → Nat → Nat → Nat → ℚ × ℚ) (sample : Nat → List Sequence)
    (stdFn : List ℚ → ℚ) (num_replicas : Nat) :
    Except AggError SubsamplingOutput :=
  let rows := replica_rows defect_seqs fisher sample num_replicas
  match calculate_stats stdFn (all_stats_columns rows) with
  | .error e => .error e
  | .ok (means, standard_deviations) =>
    match means[0]?, means[1]?, means[2]?, means[3]?,
          standard_deviations[0]?, standard_deviations[1]?,
          standard_deviations[2]?, standard_deviations[3]? with
    | some m0, some m1, some m2, some m3, some s0, some s1, some s2, some s3 =>
      .ok ⟨rows, (m0, m1, m2, m3), (s0, s1, s2, s3)⟩
    | _, _, _, _, _, _, _, _ => .error .indexError

/-- Population variance of a list of rationals (the square of the population
standard deviation `numpy.std` computes with its default `ddof=0`). -/
def pop_variance (xs : List ℚ) : ℚ :=
  ((xs.map (fun x => (x - xs.sum / (xs.length : ℚ)) ^ 2)).sum) / (xs.length : ℚ)

/-- C7 (counterexample): with `num_replicas == 0` the aggregator does fail,
but with an `IndexError` (`means` is empty because the stats dict never got
a column), not with a division by zero — the mean loop runs zero times. -/
theorem c7_zero_replicas_counterexample :
    do_subsampling SequenceList.empty (fun _ _ _ _ => (0, 0)) (fun _ => [])
        (fun _ => 0) 0 = .error .indexError ∧
    AggError.indexError ≠ AggError.zeroDivisionError := by
  exact ⟨rfl, by decide⟩

/-- C7 (amended): with `num_replicas == 0` the aggregator fails with an
index-out-of-range error (never reaching a division); for `num_replicas ≥ 1`
it succeeds, the `averages` row holds the arithmetic mean of each
per-iteration column, and the `standard deviations` row holds the population
standard deviation of each per-iteration column — the `stdFn` hypothesis is
the `numpy.std` contract on the columns of this run (`ddof=0`: non-negative square
root of the population variance). -/
theorem c7_aggregation_amended (defect_seqs : SequenceList)
    (fisher : Nat → Nat → Nat → Nat → ℚ × ℚ) (sample : Nat → List Sequence)
    (stdFn : List ℚ → ℚ) (num_replicas : Nat)
    (hn : 1 ≤ num_replicas)
    (hstd : ∀ col ∈ all_stats_columns (replica_rows defect_seqs fisher sample num_replicas),
      (stdFn col) ^ 2 = pop_variance col ∧ 0 ≤ stdFn col) :
    (do_subsampling defect_seqs fisher sample stdFn 0 = .error .indexError) ∧
    do_subsampling defect_seqs fisher sample stdFn num_replicas =
      .ok ⟨replica_rows defect_seqs fisher sample num_replicas,
        ((((replica_rows defect_seqs fisher sample num_replicas).map
            (fun r => r.unique)).sum / (num_replicas : ℚ)),
         (((replica_rows defect_seqs fisher sample num_replicas).map
            (fun r => r.clones)).sum / (num_replicas : ℚ)),
         (((replica_rows defect_seqs fisher sample num_replicas).map
            (fun r => r.odds_ratio)).sum / (num_replicas : ℚ)),
         (((replica_rows defect_seqs fisher sample num_replicas).map
            (fun r => r.p_value)).sum / (num_replicas : ℚ))),
        (stdFn ((replica_rows defect_seqs fisher sample num_replicas).map
            (fun r => r.unique)),
         stdFn ((replica_rows defect_seqs fisher sample num_replicas).map
            (fun r => r.clones)),
         stdFn ((replica_rows defect_seqs fisher sample num_replicas).map
            (fun r => r.odds_ratio)),
         stdFn ((replica_rows defect_seqs fisher sample num_replicas).map
            (fun r => r.p_value)))⟩ ∧
    ((stdFn ((replica_rows defect_seqs fisher sample num_replicas).map
        (fun r => r.unique))) ^ 2 =
      pop_variance ((replica_rows defect_seqs fisher sample num_replicas).map
        (fun r => r.unique)) ∧
     0 ≤ stdFn ((replica_rows defect_seqs fisher sample num_replicas).map
        (fun r => r.unique))) ∧
    ((stdFn ((replica_rows defect_seqs fisher sample num_replicas).map
        (fun r => r.clones))) ^ 2 =
      pop_variance ((replica_rows defect_seqs fisher sample num_replicas).map
        (fun r => r.clones)) ∧
     0 ≤ stdFn ((replica_rows defect_seqs fisher sample num_replicas).map
        (fun r => r.clones))) ∧
    ((stdFn ((replica_rows defect_seqs fisher sample num_replicas).map
        (fun r => r.odds_ratio))) ^ 2 =
      pop_variance ((replica_rows defect_seqs fisher sample num_replicas).map
        (fun r => r.odds_ratio)) ∧
     0 ≤ stdFn ((replica_rows defect_seqs fisher sample num_replicas).map
        (fun r => r.odds_ratio))) ∧
    ((stdFn ((replica_rows defect_seqs fisher sample num_replicas).map
        (fun r => r.p_value))) ^ 2 =
      pop_variance ((replica_rows defect_seqs fisher sample num_replicas).map
        (fun r => r.p_value)) ∧
     0 ≤ stdFn ((replica_rows defect_seqs fisher sample num_replicas).map
        (fun r => r.p_value))) := by
  have hlenrows : (replica_rows defect_seqs fisher sample num_replicas).length =
      num_replicas := by
    simp [replica_rows]
  have hne : replica_rows defect_seqs fisher sample num_replicas ≠ [] := by
    intro h
    rw [h] at hlenrows
    simp at hlenrows
    omega
  have hempty : (replica_rows defect_seqs fisher sample num_replicas).isEmpty = false := by
    cases h : replica_rows defect_seqs fisher sample num_replicas with
    | nil => exact absurd h hne
    | cons a t => rfl
  have hmapne : ∀ f : ReplicaRow → ℚ,
      ((replica_rows defect_seqs fisher sample num_replicas).map f).isEmpty = false := by
    intro f
    cases h : replica_rows defect_seqs fisher sample num_replicas with
    | nil => exact absurd h hne
    | cons a t => rfl
  have hmaplen : ∀ f : ReplicaRow → ℚ,
      (((replica_rows defect_seqs fisher sample num_replicas).map f).length : ℚ) =
        (num_replicas : ℚ) := by
    intro f
    rw [List.length_map, hlenrows]
  have hcols : all_stats_columns (replica_rows defect_seqs fisher sample num_replicas) =
      [(replica_rows defect_seqs fisher sample num_replicas).map (fun r => r.unique),
       (replica_rows defect_seqs fisher sample num_replicas).map (fun r => r.clones),
       (replica_rows defect_seqs fisher sample num_replicas).map (fun r => r.odds_ratio),
       (replica_rows defect_seqs fisher sample num_replicas).map (fun r => r.p_value)] := by
    simp [all_stats_columns, hempty]
  have hcalc : calculate_stats stdFn
      (all_stats_columns (replica_rows defect_seqs fisher sample num_replicas)) =
      .ok ([((replica_rows defect_seqs fisher sample num_replicas).map
              (fun r => r.unique)).sum / (num_replicas : ℚ),
            ((replica_rows defect_seqs fisher sample num_replicas).map
              (fun r => r.clones)).sum / (num_replicas : ℚ),
            ((replica_rows defect_seqs fisher sample num_replicas).map
              (fun r => r.odds_ratio)).sum / (num_replicas : ℚ),
            ((replica_rows defect_seqs fisher sample num_replicas).map
              (fun r => r.p_value)).sum / (num_replicas : ℚ)],
           [stdFn ((replica_rows defect_seqs fisher sample num_replicas).map
              (fun r => r.unique)),
            stdFn ((replica_rows defect_seqs fisher sample num_replicas).map
              (fun r => r.clones)),
            stdFn ((replica_rows defect_seqs fisher sample num_replicas).map
              (fun r => r.odds_ratio)),
            stdFn ((replica_rows defect_seqs fisher sample num_replicas).map
              (fun r => r.p_value))]) := by
    rw [hcols]
    simp [calculate_stats, hmapne, List.length_map, hlenrows]
  refine ⟨rfl, ?_, ?_, ?_, ?_, ?_⟩
  · simp only [do_subsampling]
    rw [hcalc]
    rfl
  · exact hstd _ (by rw [hcols]; exact List.mem_cons_self _ _)
  · exact hstd _ (by rw [hcols]; simp)
  · exact hstd _ (by rw [hcols]; simp)
  · exact hstd _ (by rw [hcols]; simp)

/-- C7 (witness): a single replicate with trivial oracles — the zero-replica
call fails with the index error, the one-replica call emits mean `0` and
population standard deviation `0` in every column. -/
theorem c7_aggregation_amended_witness :
    do_subsampling SequenceList.empty (fun _ _ _ _ => (0, 0)) (fun _ => [])
        (fun _ => 0) 0 = .error .indexError ∧
    do_subsampling SequenceList.empty (fun _ _ _ _ => (0, 0)) (fun _ => [])
        (fun _ => 0) 1 =
      .ok ⟨replica_rows SequenceList.empty (fun _ _ _ _ => (0, 0)) (fun _ => []) 1,
        ((((replica_rows SequenceList.empty (fun _ _ _ _ => (0, 0)) (fun _ => []) 1).map
            (fun r => r.unique)).sum / ((1 : Nat) : ℚ)),
         (((replica_rows SequenceList.empty (fun _ _ _ _ => (0, 0)) (fun _ => []) 1).map
            (fun r => r.clones)).sum / ((1 : Nat) : ℚ)),
         (((replica_rows SequenceList.empty (fun _ _ _ _ => (0, 0)) (fun _ => []) 1).map
            (fun r => r.odds_ratio)).sum / ((1 : Nat) : ℚ)),
         (((replica_rows SequenceList.empty (fun _ _ _ _ => (0, 0)) (fun _ => []) 1).map
            (fun r => r.p_value)).sum / ((1 : Nat) : ℚ))),
        (0, 0, 0, 0)⟩ := by
  have h := c7_aggregation_amended SequenceList.empty (fun _ _ _ _ => (0, 0))
    (fun _ => []) (fun _ => 0) 1 (by decide)
    (by
      intro col hcol
      have hcc : all_stats_columns (replica_rows SequenceList.empty
          (fun _ _ _ _ => (0, 0)) (fun _ => []) 1) = [[0], [0], [0], [0]] := by decide
      rw [hcc] at hcol
      have hc : col = [(0 : ℚ)] := by
        simpa using hcol
      constructor
      · show (0 : ℚ) ^ 2 = pop_variance col
        rw [hc]
        norm_num [pop_variance]
      · norm_num)
  exact ⟨h.1, h.2.1⟩

end Subsampling
